import Mathlib

/-!
Shallow embedding of the two AI API route handlers of the todo application:
  - src/app/api/ai/generate-todo/route.ts  (input validation, model-fallback
    loop, error classification, and the response normalizer postprocessResult)
  - src/app/api/ai/analyze-todos/route.ts  (request validation and the
    statistics aggregation feeding the analysis prompt)

Conventions of the embedding:
  - JavaScript strings are modeled as Lean String; `.length`, `.substring`,
    `.trim` are modeled on the underlying character list (one Lean Char per
    JS UTF-16 code unit; exact on the Basic Multilingual Plane, which covers
    every string the claims exercise).
  - A JSON field holding a string-or-null/undefined value is Option String
    (none = null/undefined/absent).  JS truthiness of such a field is
    "some s with s nonempty".
  - `new Date(s)` is modeled by jsDateTS, the ECMA-262-mandated ISO 8601
    parsing (date form YYYY-MM-DD, optionally followed by THH:mm, THH:mm:ss,
    with optional trailing Z), returning seconds on a linear UTC time axis
    where consecutive calendar days differ by exactly 86400.  Engine-specific
    fallback date formats parse as Invalid Date (none) in this model; no
    claim depends on them.  The runtime timezone is modeled as UTC, so
    `setHours(0,0,0,0)` is flooring to a multiple of 86400.
  - The ambient clock (`new Date()`) is an explicit `now` parameter.
  - Fallible external model calls are `Except JsErr A` outcomes supplied as
    an environment list, one per configured model identifier, in order.
-/

set_option autoImplicit false
set_option maxRecDepth 4000

namespace TodoApp

/-- JS whitespace as relevant to `String.prototype.trim` (ASCII subset; the
strings in this development contain no exotic Unicode whitespace). -/
def isJsWs (c : Char) : Bool :=
  c = ' ' || c = '\t' || c = '\n' || c = '\r'

/-- Drop the longest suffix of `l` all of whose characters satisfy `p`
(the trailing half of JS `trim`). -/
def dropEndWhile (p : Char → Bool) : List Char → List Char
  | [] => []
  | x :: l =>
    match dropEndWhile p l with
    | [] => if p x then [] else [x]
    | y :: ys => x :: y :: ys

/-- The character-list form of JS `trim`: drop leading then trailing
whitespace-like characters. -/
def trimChars (p : Char → Bool) (l : List Char) : List Char :=
  dropEndWhile p (l.dropWhile p)

/-- JS `s.trim()`. -/
def jsTrim (s : String) : String :=
  ⟨trimChars isJsWs s.data⟩

/-- JS `s.length` (UTF-16 code units; code points in this model). -/
def jsLen (s : String) : Nat :=
  s.data.length

/-- JS `s.substring(0, n)`. -/
def jsTake (s : String) (n : Nat) : String :=
  ⟨s.data.take n⟩

/-- JS string concatenation. -/
def jsConcat (a b : String) : String :=
  ⟨a.data ++ b.data⟩

/-- Numeric value of a decimal digit character. -/
def digVal (c : Char) : Nat :=
  c.toNat - '0'.toNat

/-- Does the list start with the given pattern? -/
def startsWithChars : List Char → List Char → Bool
  | _, [] => true
  | [], _ :: _ => false
  | a :: l, b :: m => a == b && startsWithChars l m

/-- Does the list contain the pattern as a contiguous sublist?  Models JS
`String.prototype.includes`. -/
def hasSubChars : List Char → List Char → Bool
  | [], pat => startsWithChars [] pat
  | x :: t, pat => startsWithChars (x :: t) pat || hasSubChars t pat

/-- JS `hay.includes(needle)`. -/
def jsIncludes (hay needle : String) : Bool :=
  hasSubChars hay.data needle.data

/-- ASCII lowercasing of one character (the error-classification keywords
are all ASCII, so this captures `toLowerCase` exactly where it matters). -/
def jsCharToLower (c : Char) : Char :=
  if 'A' ≤ c && c ≤ 'Z' then Char.ofNat (c.toNat + 32) else c

/-- JS `s.toLowerCase()` on ASCII letters. -/
def jsToLower (s : String) : String :=
  ⟨s.data.map jsCharToLower⟩

/-- JS `Number(s)` restricted to the strings that occur here: a nonempty
all-digit string is its decimal value, the empty string is 0, and anything
else (the NaN case) is none.  (Full `Number` also accepts signs, decimals
and exponents; none of those forms affect the claims, and NaN-producing
strings behave identically: every comparison on NaN is false.) -/
def jsNum (s : String) : Option Nat :=
  if s.data = [] then some 0
  else if s.data.all Char.isDigit then
    some (s.data.foldl (fun a c => a * 10 + digVal c) 0)
  else none

/-- Gregorian leap year. -/
def isLeap (y : Nat) : Bool :=
  (y % 4 = 0 && y % 100 ≠ 0) || y % 400 = 0

/-- Days in a month of the Gregorian calendar. -/
def daysInMonth (y m : Nat) : Nat :=
  if m = 2 then (if isLeap y then 29 else 28)
  else if m = 4 || m = 6 || m = 9 || m = 11 then 30
  else 31

/-- Day number of a Gregorian calendar date on a linear axis (days since
0000-03-01), via the standard month-shifting formula.  Strictly monotonic in
calendar order and consecutive dates differ by exactly 1, which is all the
embedding relies on. -/
def daysFromCivil (y m d : Nat) : Nat :=
  let m' := (m + 9) % 12
  let y' := y - m' / 10
  365 * y' + y' / 4 - y' / 100 + y' / 400 + (m' * 306 + 5) / 10 + (d - 1)

/-- Parse the optional time-of-day suffix of an ISO 8601 date-time string
(the part after the 10-character date): empty, or `THH:mm`, `THH:mm:ss`,
each optionally ending in `Z`.  Returns seconds into the day. -/
def parseTimeSuffix : List Char → Option Nat
  | [] => some 0
  | 'T' :: h1 :: h2 :: ':' :: m1 :: m2 :: rest =>
    if h1.isDigit && h2.isDigit && m1.isDigit && m2.isDigit then
      let h := digVal h1 * 10 + digVal h2
      let mi := digVal m1 * 10 + digVal m2
      if h < 24 && mi < 60 then
        match rest with
        | [] => some (h * 3600 + mi * 60)
        | ['Z'] => some (h * 3600 + mi * 60)
        | ':' :: s1 :: s2 :: rest2 =>
          if s1.isDigit && s2.isDigit && digVal s1 * 10 + digVal s2 < 60 then
            match rest2 with
            | [] => some (h * 3600 + mi * 60 + digVal s1 * 10 + digVal s2)
            | ['Z'] => some (h * 3600 + mi * 60 + digVal s1 * 10 + digVal s2)
            | _ => none
          else none
        | _ => none
      else none
    else none
  | _ => none

/-- Model of `new Date(s)` for the ISO 8601 forms mandated by ECMA-262, as a UTC
timestamp in seconds on the daysFromCivil axis; none is Invalid Date.
Out-of-range month/day components yield Invalid Date, as in V8. -/
def jsDateTS (s : String) : Option Nat :=
  match s.data with
  | y1 :: y2 :: y3 :: y4 :: '-' :: mo1 :: mo2 :: '-' :: d1 :: d2 :: rest =>
    if y1.isDigit && y2.isDigit && y3.isDigit && y4.isDigit &&
       mo1.isDigit && mo2.isDigit && d1.isDigit && d2.isDigit then
      let y := ((digVal y1 * 10 + digVal y2) * 10 + digVal y3) * 10 + digVal y4
      let m := digVal mo1 * 10 + digVal mo2
      let d := digVal d1 * 10 + digVal d2
      if 1 ≤ m && m ≤ 12 && 1 ≤ d && d ≤ daysInMonth y m then
        (parseTimeSuffix rest).map (fun secs => daysFromCivil y m d * 86400 + secs)
      else none
    else none
  | _ => none

/-- Model of `new Date(x)` where the field may be absent (`new Date(undefined)` is
Invalid Date). -/
def jsDateTSField (o : Option String) : Option Nat :=
  match o with
  | some s => jsDateTS s
  | none => none

/-- The calendar-day number of a parsed date after `setHours(0,0,0,0)`
(UTC model: floor to a multiple of 86400, expressed in days). -/
def jsDateDay (s : String) : Option Nat :=
  (jsDateTS s).map (fun ts => ts / 86400)

/-! ## generate-todo: the response normalizer `postprocessResult` -/

/-- The raw structured object returned by the external model call (and also
the shape of the normalizer's output).  Each field is a string or
null/undefined; `some ""` is the falsy empty string. -/
structure RawTodo where
  title : Option String := none
  description : Option String := none
  due_date : Option String := none
  due_time : Option String := none
  priority : Option String := none
  category : Option String := none
deriving DecidableEq

/-- The date regex of the normalizer, `^\d{4}-\d{2}-\d{2}$`. -/
def matchesDateRegex (s : String) : Bool :=
  match s.data with
  | [a, b, c, d, '-', e, f, '-', g, h] =>
    a.isDigit && b.isDigit && c.isDigit && d.isDigit &&
    e.isDigit && f.isDigit && g.isDigit && h.isDigit
  | _ => false

/-- The time regex of the normalizer, `^([0-1][0-9]|2[0-3]):[0-5][0-9]$`. -/
def matchesTimeRegex (s : String) : Bool :=
  match s.data with
  | [h1, h2, ':', m1, m2] =>
    (((h1 = '0' || h1 = '1') && h2.isDigit) || (h1 = '2' && '0' ≤ h2 && h2 ≤ '3')) &&
    ('0' ≤ m1 && m1 ≤ '5') && m2.isDigit
  | _ => false

/-- Title branch of postprocessResult: a falsy or non-string title becomes
the fixed placeholder; otherwise trim, truncate to 97 chars plus an ellipsis
when longer than 100, and fall back to the placeholder when empty. -/
def normTitle (t : Option String) : String :=
  match t with
  | none => "할 일"
  | some raw =>
    if raw = "" then "할 일"
    else
      let t1 := jsTrim raw
      let t2 := if 100 < jsLen t1 then jsConcat (jsTake t1 97) "..." else t1
      if jsLen t2 < 1 then "할 일" else t2

/-- Description branch: a truthy string is trimmed, with the empty result
normalized to null; everything else becomes null. -/
def normDescription (d : Option String) : Option String :=
  match d with
  | some s =>
    if s = "" then none
    else
      let t := jsTrim s
      if jsLen t = 0 then none else some t
  | none => none

/-- Is the due date strictly before the current date, after flooring both to
calendar days?  False whenever either side is Invalid Date (every comparison
on NaN is false in JS). -/
def jsPastDay (s cd : String) : Bool :=
  match jsDateDay s, jsDateDay cd with
  | some a, some b => decide (a < b)
  | _, _ => false

/-- Due-date branch: a truthy string that parses to a day strictly before
the current date is replaced by the current date; otherwise it is kept when
it matches `YYYY-MM-DD` and dropped to null when it does not.  Everything
else becomes null.  (The source's try/catch is dead: none of `new Date`,
`setHours`, comparison, `test` throws.) -/
def normDueDate (s : Option String) (currentDate : String) : Option String :=
  match s with
  | some v =>
    if v = "" then none
    else if jsPastDay v currentDate then some currentDate
    else if matchesDateRegex v then some v
    else none
  | none => none

/-- Due-time branch: a truthy string is kept iff it matches the time regex;
everything else becomes null. -/
def normDueTime (s : Option String) : Option String :=
  match s with
  | some v =>
    if v = "" then none
    else if matchesTimeRegex v then some v
    else none
  | none => none

/-- Priority branch: a falsy value or one outside the enumeration defaults
to medium. -/
def normPriority (p : Option String) : String :=
  match p with
  | some v =>
    if v = "" then "medium"
    else if v = "high" || v = "medium" || v = "low" then v
    else "medium"
  | none => "medium"

/-- Category branch: same shape as the description branch. -/
def normCategory (c : Option String) : Option String :=
  match c with
  | some s =>
    if s = "" then none
    else
      let t := jsTrim s
      if jsLen t = 0 then none else some t
  | none => none

/-- postprocessResult of src/app/api/ai/generate-todo/route.ts: the six
field updates are independent of one another (each reads only its own input
field, plus `currentDate` for the due date), so the sequential mutation of
the copied record is embedded field-wise. -/
def postprocessResult (data : RawTodo) (currentDate : String) : RawTodo :=
  { title := some (normTitle data.title)
    description := normDescription data.description
    due_date := normDueDate data.due_date currentDate
    due_time := normDueTime data.due_time
    priority := some (normPriority data.priority)
    category := normCategory data.category }

/-! ## generate-todo: input validation and the request handler -/

/-- Count of characters matching `[^\w\s가-힣]` (neither an ASCII word
character, nor whitespace, nor a Hangul syllable). -/
def specialCharCount (s : String) : Nat :=
  (s.data.filter (fun c =>
    !(c.isAlphanum || c = '_' || isJsWs c || (0xAC00 ≤ c.toNat && c.toNat ≤ 0xD7A3)))).length

/-- validateInput of the generation route (the error strings are omitted;
only validity matters downstream).  The noise check `count > length * 0.5`
is the exact integer condition `2 * count > length`. -/
def validateInput (text : String) : Bool :=
  if jsLen (jsTrim text) = 0 then false
  else if jsLen (jsTrim text) < 2 then false
  else if 500 < jsLen text then false
  else if jsLen text < 2 * specialCharCount text then false
  else true

/-- An error thrown by the external model call; only its message (possibly
absent) is inspected by the handler. -/
structure JsErr where
  message : Option String := none
deriving DecidableEq

/-- State of the model-fallback loop after it finishes: the generated
object if any attempt succeeded, the last error recorded, and how many
identifiers were attempted. -/
structure LoopRes (A : Type) where
  object : Option A
  lastError : Option JsErr
  attempts : Nat
deriving DecidableEq

/-- The for-loop over `modelNames`: try each outcome in order, breaking on
the first success; EVERY failure stores `lastError` and continues to the
next identifier (the catch block is unconditional). -/
def runModels {A : Type} : List (Except JsErr A) → Option JsErr → LoopRes A
  | [], le => ⟨none, le, 0⟩
  | .ok a :: _, le => ⟨some a, le, 1⟩
  | .error e :: rest, _ =>
    let r := runModels rest (some e)
    ⟨r.object, r.lastError, r.attempts + 1⟩

/-- The handler's error taxonomy, applied to the last error's message after
all model identifiers have failed. -/
inductive ErrClass where
  | quota
  | auth
  | modelUnavailable
  | network
  | unknown
deriving DecidableEq

/-- Models `lastError?.message?.toLowerCase() || ""`. -/
def errMsgLower (e : Option JsErr) : String :=
  match e with
  | some err =>
    match err.message with
    | some m => jsToLower m
    | none => ""
  | none => ""

/-- The if-chain classifying the lowercased error message. -/
def classifyMsg (m : String) : ErrClass :=
  if jsIncludes m "quota" || jsIncludes m "rate limit" || jsIncludes m "429" ||
     jsIncludes m "resource exhausted" then .quota
  else if jsIncludes m "api key" || jsIncludes m "api_key" ||
          jsIncludes m "authentication" then .auth
  else if jsIncludes m "model" || jsIncludes m "not found" ||
          jsIncludes m "invalid model" || jsIncludes m "model not found" ||
          jsIncludes m "404" then .modelUnavailable
  else if jsIncludes m "network" || jsIncludes m "timeout" ||
          jsIncludes m "fetch" then .network
  else .unknown

/-- HTTP status of each error class in the all-models-failed branch. -/
def statusOfClass : ErrClass → Nat
  | .quota => 429
  | .auth => 500
  | .modelUnavailable => 500
  | .network => 500
  | .unknown => 500

/-- A parsed JSON value for the `text` field: a string, or any non-string
value (which fails the `typeof` check). -/
inductive JsV where
  | str (s : String)
  | nonstr
deriving DecidableEq

/-- Observable outcome of one generate-todo request: HTTP status, how many
model identifiers were attempted, and the normalized draft returned (if
any). -/
structure GenResponse where
  status : Nat
  attempts : Nat
  data : Option RawTodo
deriving DecidableEq

/-- POST of src/app/api/ai/generate-todo/route.ts up to its observable
behavior.  `body` is the parsed `text` field (none = JSON parse failure),
`apiKeySet` the presence of the API key, `outcomes` the environment's
response per configured model identifier in order, `currentDate` the
handler's YYYY-MM-DD current date. -/
def generatePOST (body : Option JsV) (apiKeySet : Bool)
    (outcomes : List (Except JsErr RawTodo)) (currentDate : String) : GenResponse :=
  match body with
  | none => ⟨400, 0, none⟩
  | some .nonstr => ⟨400, 0, none⟩
  | some (.str text) =>
    if !validateInput text then ⟨400, 0, none⟩
    else if !apiKeySet then ⟨500, 0, none⟩
    else
      let r := runModels outcomes none
      match r.object with
      | some obj => ⟨200, r.attempts, some (postprocessResult obj currentDate)⟩
      | none => ⟨statusOfClass (classifyMsg (errMsgLower r.lastError)), r.attempts, none⟩

/-! ## analyze-todos: the statistics aggregation -/

/-- A task record as consumed by the statistics code (only the fields the
aggregation reads). -/
structure Todo where
  completed : Bool := false
  priority : Option String := none
  category : Option String := none
  due_date : Option String := none
  due_time : Option String := none
  created_date : Option String := none
deriving DecidableEq

/-- JS truthiness of a string-or-absent field. -/
def truthyS (o : Option String) : Bool :=
  match o with
  | some s => !(s == "")
  | none => false

/-- One `{ total, completed }` accumulator cell. -/
structure Bucket where
  total : Nat := 0
  completed : Nat := 0
deriving DecidableEq

/-- Increment a bucket for one task. -/
def bump (b : Bucket) (completed : Bool) : Bucket :=
  ⟨b.total + 1, if completed then b.completed + 1 else b.completed⟩

/-- The four fixed time-slot buckets (keys 오전/오후/저녁/밤 in the source). -/
structure TimeSlots where
  morning : Bucket := {}
  afternoon : Bucket := {}
  evening : Bucket := {}
  night : Bucket := {}
deriving DecidableEq

/-- The four slot identities. -/
inductive Slot where
  | morning
  | afternoon
  | evening
  | night
deriving DecidableEq

/-- JS `s.split(sep)` for a one-character separator, on character lists:
splitting at every occurrence, keeping empty segments (so splitting the
empty list gives one empty segment, as `"".split(":")` gives `[""]`). -/
def splitChars (sep : Char) : List Char → List (List Char)
  | [] => [[]]
  | c :: rest =>
    let r := splitChars sep rest
    if c = sep then [] :: r
    else
      match r with
      | [] => [[c]]
      | h :: t => (c :: h) :: t

/-- Models `Number(due_time.split(":")[0])`: the hour component as JS computes it. -/
def hourOf (s : String) : Option Nat :=
  jsNum (String.mk ((splitChars ':' s.data).headD []))

/-- Which slot a task's due_time falls into: hours 9-11 morning, 12-17
afternoon, 18-20 evening, 21 and above night; any other hour (including the
0-8 band and NaN) is assigned to no slot (the loop body returns early). -/
def slotOf (dt : Option String) : Option Slot :=
  match dt with
  | none => none
  | some s =>
    if s = "" then none
    else
      match hourOf s with
      | none => none
      | some h =>
        if 9 ≤ h && h < 12 then some .morning
        else if 12 ≤ h && h < 18 then some .afternoon
        else if 18 ≤ h && h < 21 then some .evening
        else if 21 ≤ h then some .night
        else none

/-- One iteration of the time-slot forEach. -/
def addToSlots (ts : TimeSlots) (t : Todo) : TimeSlots :=
  match slotOf t.due_time with
  | none => ts
  | some .morning => { ts with morning := bump ts.morning t.completed }
  | some .afternoon => { ts with afternoon := bump ts.afternoon t.completed }
  | some .evening => { ts with evening := bump ts.evening t.completed }
  | some .night => { ts with night := bump ts.night t.completed }

/-- The time-slot aggregation loop. -/
def computeTimeSlots (todos : List Todo) : TimeSlots :=
  todos.foldl addToSlots {}

/-- The seven weekday buckets (keys 월요일..일요일 in the source). -/
structure DayStats where
  sunday : Bucket := {}
  monday : Bucket := {}
  tuesday : Bucket := {}
  wednesday : Bucket := {}
  thursday : Bucket := {}
  friday : Bucket := {}
  saturday : Bucket := {}
deriving DecidableEq

/-- Models `new Date(due_date).getDay()`: 0 = Sunday.  On the daysFromCivil axis,
day 0 (0000-03-01) is a Wednesday, hence the +3 offset.  An invalid date
gives NaN, indexes dayNames to undefined, and the `if (dayOfWeekStats[dayName])`
guard then skips the task — modeled as none. -/
def weekdayOf (dd : Option String) : Option Nat :=
  match dd with
  | some s =>
    if s = "" then none
    else (jsDateTS s).map (fun ts => (ts / 86400 + 3) % 7)
  | none => none

/-- One iteration of the weekday forEach (the `if (todo.due_date)` truthiness
guard is folded into weekdayOf). -/
def addToDays (ds : DayStats) (t : Todo) : DayStats :=
  match weekdayOf t.due_date with
  | some 0 => { ds with sunday := bump ds.sunday t.completed }
  | some 1 => { ds with monday := bump ds.monday t.completed }
  | some 2 => { ds with tuesday := bump ds.tuesday t.completed }
  | some 3 => { ds with wednesday := bump ds.wednesday t.completed }
  | some 4 => { ds with thursday := bump ds.thursday t.completed }
  | some 5 => { ds with friday := bump ds.friday t.completed }
  | some 6 => { ds with saturday := bump ds.saturday t.completed }
  | _ => ds

/-- The weekday aggregation loop. -/
def computeDayStats (todos : List Todo) : DayStats :=
  todos.foldl addToDays {}

/-- Models `todo.category || "기타"`. -/
def catKey (c : Option String) : String :=
  match c with
  | some s => if s = "" then "기타" else s
  | none => "기타"

/-- Update the category record: create the key's bucket on first sight,
then increment it.  Insertion order is preserved, as for JS object keys. -/
def bumpCat : List (String × Bucket) → String → Bool → List (String × Bucket)
  | [], k, c => [(k, ⟨1, if c then 1 else 0⟩)]
  | (k', b) :: rest, k, c =>
    if k' = k then (k', bump b c) :: rest
    else (k', b) :: bumpCat rest k c

/-- The category aggregation loop. -/
def computeCategoryStats (todos : List Todo) : List (String × Bucket) :=
  todos.foldl (fun acc t => bumpCat acc (catKey t.category) t.completed) []

/-- Models `((completed / total) * 100).toFixed(1)` on the exact rational value,
rendered with one decimal: round half up of `completed * 1000 / total`.
This abstracts IEEE-double rounding by exact rational rounding; no claim
inspects a nonzero-denominator digit string. -/
def jsToFixed1 (completed total : Nat) : String :=
  let n := (completed * 2000 + total) / (2 * total)
  toString (n / 10) ++ "." ++ toString (n % 10)

/-- Models `total > 0 ? rate.toFixed(1) : "0"` — the guarded rate pattern used for
the overall, per-priority, on-time and per-slot rates. -/
def rateStr (completed total : Nat) : String :=
  if 0 < total then jsToFixed1 completed total else "0"

/-- completedOnTime predicate: a completed task with a truthy due_date whose
creation timestamp is at or before its due timestamp (no day flooring here);
false whenever either date is invalid. -/
def onTimePred (t : Todo) : Bool :=
  if !truthyS t.due_date || !t.completed then false
  else
    match jsDateTSField t.created_date, jsDateTSField t.due_date with
    | some c, some d => decide (c ≤ d)
    | _, _ => false

/-- overdue predicate: an incomplete task with a truthy due_date strictly in
the past relative to the ambient clock `now`. -/
def overduePred (t : Todo) (now : Nat) : Bool :=
  if !truthyS t.due_date || t.completed then false
  else
    match jsDateTSField t.due_date with
    | some d => decide (d < now)
    | none => false

/-- upcomingDeadlines predicate: an incomplete task with a truthy due_date
between `now` and `now` plus one day inclusive. -/
def upcomingPred (t : Todo) (now : Nat) : Bool :=
  if !truthyS t.due_date || t.completed then false
  else
    match jsDateTSField t.due_date with
    | some d => decide (now ≤ d && d ≤ now + 86400)
    | none => false

/-- The full statistics bundle computed by the analyze-todos handler before
prompt construction. -/
structure Stats where
  total : Nat
  completed : Nat
  completionRate : String
  highPriorityTotal : Nat
  highPriorityCompleted : Nat
  highPriorityRate : String
  mediumPriorityTotal : Nat
  mediumPriorityCompleted : Nat
  mediumPriorityRate : String
  lowPriorityTotal : Nat
  lowPriorityCompleted : Nat
  lowPriorityRate : String
  highPriorityPending : Nat
  mediumPriorityPending : Nat
  lowPriorityPending : Nat
  withDueDate : Nat
  completedOnTime : Nat
  onTimeRate : String
  overdue : Nat
  upcomingDeadlines : Nat
  timeSlots : TimeSlots
  dayOfWeek : DayStats
  categoryStats : List (String × Bucket)
deriving DecidableEq

/-- The statistics section of POST in src/app/api/ai/analyze-todos/route.ts
(lines 45-146).  `now` is the ambient clock read by the overdue and
upcoming-deadline filters; the period selector is not read by any
statistic (it only selects a label in the prompt). -/
def aggregate (todos : List Todo) (now : Nat) : Stats :=
  let total := todos.length
  let completedN := (todos.filter (fun t => t.completed)).length
  let highTotal := (todos.filter (fun t => t.priority == some "high")).length
  let highCompleted := (todos.filter (fun t => t.priority == some "high" && t.completed)).length
  let medTotal := (todos.filter (fun t => t.priority == some "medium")).length
  let medCompleted := (todos.filter (fun t => t.priority == some "medium" && t.completed)).length
  let lowTotal := (todos.filter (fun t => t.priority == some "low")).length
  let lowCompleted := (todos.filter (fun t => t.priority == some "low" && t.completed)).length
  let withDue := (todos.filter (fun t => truthyS t.due_date)).length
  let onTime := (todos.filter onTimePred).length
  { total := total
    completed := completedN
    completionRate := rateStr completedN total
    highPriorityTotal := highTotal
    highPriorityCompleted := highCompleted
    highPriorityRate := rateStr highCompleted highTotal
    mediumPriorityTotal := medTotal
    mediumPriorityCompleted := medCompleted
    mediumPriorityRate := rateStr medCompleted medTotal
    lowPriorityTotal := lowTotal
    lowPriorityCompleted := lowCompleted
    lowPriorityRate := rateStr lowCompleted lowTotal
    highPriorityPending := (todos.filter (fun t => t.priority == some "high" && !t.completed)).length
    mediumPriorityPending := (todos.filter (fun t => t.priority == some "medium" && !t.completed)).length
    lowPriorityPending := (todos.filter (fun t => t.priority == some "low" && !t.completed)).length
    withDueDate := withDue
    completedOnTime := onTime
    onTimeRate := rateStr onTime withDue
    overdue := (todos.filter (fun t => overduePred t now)).length
    upcomingDeadlines := (todos.filter (fun t => upcomingPred t now)).length
    timeSlots := computeTimeSlots todos
    dayOfWeek := computeDayStats todos
    categoryStats := computeCategoryStats todos }

/-- The per-slot rate string rendered in the prompt:
`stats.total > 0 ? ((stats.completed / stats.total) * 100).toFixed(1) : "0"`. -/
def slotRateStr (b : Bucket) : String :=
  rateStr b.completed b.total

/-- The weekday lines rendered in the prompt: the seven buckets in key
order, filtered to those with a positive total BEFORE the (unguarded) rate
division. -/
def weekdayLines (d : DayStats) : List (String × Bucket) :=
  ([("월요일", d.monday), ("화요일", d.tuesday), ("수요일", d.wednesday),
    ("목요일", d.thursday), ("금요일", d.friday), ("토요일", d.saturday),
    ("일요일", d.sunday)]).filter (fun e => 0 < e.2.total)

/-! ## analyze-todos: the request handler -/

/-- The parsed `todos` field of the request body: absent/undefined, a falsy
non-array value, a truthy non-array value, or an actual array. -/
inductive TodosField where
  | missing
  | nonArrayFalsy
  | nonArrayTruthy
  | arr (todos : List Todo)
deriving DecidableEq

/-- Models `!todos || !Array.isArray(todos)` — note that an empty array is truthy
and IS an array, so it passes. -/
def todosFieldInvalid : TodosField → Bool
  | .missing => true
  | .nonArrayFalsy => true
  | .nonArrayTruthy => true
  | .arr _ => false

/-- Models `!period || !["today", "week"].includes(period)`. -/
def periodInvalid (p : Option String) : Bool :=
  match p with
  | some s => !(s == "today" || s == "week")
  | none => true

/-- Observable outcome of one analyze-todos request: HTTP status, whether
the external model was invoked, and the statistics bundle embedded in the
prompt when it was. -/
structure AnalyzeResponse where
  status : Nat
  modelCalled : Bool
  stats : Option Stats
deriving DecidableEq

/-- POST of src/app/api/ai/analyze-todos/route.ts up to its observable
behavior: todos validation, period validation, API-key check, statistics
aggregation, then a single model call whose failure is classified exactly
as in the generation handler's catch block. -/
def analyzePOST (todos : TodosField) (period : Option String) (apiKeySet : Bool)
    (outcome : Except JsErr Unit) (now : Nat) : AnalyzeResponse :=
  if todosFieldInvalid todos then ⟨400, false, none⟩
  else if periodInvalid period then ⟨400, false, none⟩
  else if !apiKeySet then ⟨500, false, none⟩
  else
    match todos with
    | .arr l =>
      let s := aggregate l now
      match outcome with
      | .ok _ => ⟨200, true, some s⟩
      | .error e => ⟨statusOfClass (classifyMsg (errMsgLower (some e))), true, some s⟩
    | _ => ⟨400, false, none⟩

/-! ## Lemmas about the trim machinery -/

theorem dropWhile_self_dropWhile (p : Char → Bool) (l : List Char) :
    (l.dropWhile p).dropWhile p = l.dropWhile p := by
  induction l with
  | nil => rfl
  | cons x t ih =>
    by_cases h : p x = true
    · simp [List.dropWhile, h, ih]
    · simp [List.dropWhile, h]

theorem dropWhile_head_not (p : Char → Bool) (l : List Char) (y : Char) (ys : List Char)
    (h : l.dropWhile p = y :: ys) : p y = false := by
  induction l with
  | nil => simp [List.dropWhile] at h
  | cons x t ih =>
    by_cases hx : p x = true
    · rw [List.dropWhile_cons_of_pos hx] at h
      exact ih h
    · rw [List.dropWhile_cons_of_neg hx] at h
      cases h
      simpa using hx

theorem dropEndWhile_idem (p : Char → Bool) (l : List Char) :
    dropEndWhile p (dropEndWhile p l) = dropEndWhile p l := by
  induction l with
  | nil => rfl
  | cons x t ih =>
    cases h : dropEndWhile p t with
    | nil =>
      by_cases hx : p x = true
      · simp [dropEndWhile, h, hx]
      · simp [dropEndWhile, h, hx]
    | cons y ys =>
      rw [h] at ih
      simp only [dropEndWhile, h]
      simp only [dropEndWhile] at ih ⊢
      rw [ih]

theorem dropEndWhile_cons_head (p : Char → Bool) (x : Char) (t : List Char)
    (y : Char) (ys : List Char) (h : dropEndWhile p (x :: t) = y :: ys) : y = x := by
  simp only [dropEndWhile] at h
  cases ht : dropEndWhile p t with
  | nil =>
    rw [ht] at h
    by_cases hx : p x = true
    · simp [hx] at h
    · simp [hx] at h
      exact h.1.symm
  | cons z zs =>
    rw [ht] at h
    cases h
    rfl

theorem dropWhile_dropEndWhile_comm (p : Char → Bool) (l : List Char) :
    (dropEndWhile p l).dropWhile p = dropEndWhile p (l.dropWhile p) := by
  induction l with
  | nil => rfl
  | cons x t ih =>
    by_cases hx : p x = true
    · rw [List.dropWhile_cons_of_pos hx]
      cases ht : dropEndWhile p t with
      | nil =>
        simp only [dropEndWhile, ht, hx, if_pos]
        rw [← ih, ht]
      | cons y ys =>
        simp only [dropEndWhile, ht]
        rw [List.dropWhile_cons_of_pos hx, ← ht, ih]
    · rw [List.dropWhile_cons_of_neg hx]
      cases ht : dropEndWhile p t with
      | nil =>
        simp only [dropEndWhile, ht, hx]
        simp [List.dropWhile, hx]
      | cons y ys =>
        simp only [dropEndWhile, ht]
        rw [List.dropWhile_cons_of_neg hx]

theorem trimChars_idem (p : Char → Bool) (l : List Char) :
    trimChars p (trimChars p l) = trimChars p l := by
  simp only [trimChars]
  rw [dropWhile_dropEndWhile_comm, dropWhile_self_dropWhile, dropEndWhile_idem]

theorem jsTrim_idem (s : String) : jsTrim (jsTrim s) = jsTrim s :=
  congrArg String.mk (trimChars_idem isJsWs s.data)

theorem trimChars_head_not (p : Char → Bool) (l : List Char) (y : Char) (ys : List Char)
    (h : trimChars p l = y :: ys) : p y = false := by
  simp only [trimChars] at h
  cases hd : l.dropWhile p with
  | nil => rw [hd] at h; simp [dropEndWhile] at h
  | cons z zs =>
    rw [hd] at h
    have hy : y = z := dropEndWhile_cons_head p z zs y ys h
    subst hy
    exact dropWhile_head_not p l y zs hd

theorem dropEndWhile_cons (p : Char → Bool) (x : Char) (t : List Char) :
    dropEndWhile p (x :: t) =
      match dropEndWhile p t with
      | [] => if p x then [] else [x]
      | y :: ys => x :: y :: ys := rfl

theorem dropEndWhile_append_dots (l : List Char) :
    dropEndWhile isJsWs (l ++ ['.', '.', '.']) = l ++ ['.', '.', '.'] := by
  induction l with
  | nil => decide
  | cons x t ih =>
    rw [List.cons_append, dropEndWhile_cons, ih]
    cases ht : t ++ ['.', '.', '.'] with
    | nil => simp at ht
    | cons z zs => rfl

theorem dropWhile_cons_not (p : Char → Bool) (y : Char) (ys : List Char)
    (h : p y = false) : (y :: ys).dropWhile p = y :: ys :=
  List.dropWhile_cons_of_neg (by simp [h])

theorem string_eq_empty_iff (s : String) : s = "" ↔ s.data = [] := by
  cases s with
  | mk d =>
    constructor
    · intro h
      exact congrArg String.data h
    · intro h
      have hd : d = [] := h
      rw [hd]

theorem jsLen_eq_zero_iff (s : String) : jsLen s = 0 ↔ s = "" := by
  rw [string_eq_empty_iff, jsLen, List.length_eq_zero]

/-! ## Lemmas about the normalizer's field branches -/

theorem jsTrim_of_trimmed_concat_dots (t1 : String) (h : t1.data ≠ [])
    (hh : ∀ y ys, t1.data = y :: ys → isJsWs y = false) :
    jsTrim (jsConcat (jsTake t1 97) "...") = jsConcat (jsTake t1 97) "..." := by
  cases hd : t1.data with
  | nil => exact absurd hd h
  | cons y ys =>
    have hy : isJsWs y = false := hh y ys hd
    apply congrArg String.mk
    show trimChars isJsWs (t1.data.take 97 ++ ['.', '.', '.']) = t1.data.take 97 ++ ['.', '.', '.']
    rw [trimChars, hd]
    show dropEndWhile isJsWs (((y :: ys).take 97 ++ ['.', '.', '.']).dropWhile isJsWs) = _
    rw [List.take_succ_cons, List.cons_append, dropWhile_cons_not isJsWs y _ hy,
      ← List.cons_append, ← List.take_succ_cons, dropEndWhile_append_dots]

theorem jsTrim_head_not (s : String) (y : Char) (ys : List Char)
    (h : (jsTrim s).data = y :: ys) : isJsWs y = false :=
  trimChars_head_not isJsWs s.data y ys h

theorem normTitle_some_eq (raw : String) (h : ¬(raw = "")) :
    normTitle (some raw) =
      (if jsLen (if 100 < jsLen (jsTrim raw) then jsConcat (jsTake (jsTrim raw) 97) "..."
                 else jsTrim raw) < 1
       then "할 일"
       else (if 100 < jsLen (jsTrim raw) then jsConcat (jsTake (jsTrim raw) 97) "..."
             else jsTrim raw)) := by
  simp only [normTitle, h, if_false, if_neg]

theorem truncated_title_len (raw : String) (h100 : 100 < jsLen (jsTrim raw)) :
    jsLen (jsConcat (jsTake (jsTrim raw) 97) "...") = 100 := by
  show ((jsTrim raw).data.take 97 ++ ['.', '.', '.']).length = 100
  rw [List.length_append, List.length_take]
  have : 100 < (jsTrim raw).data.length := h100
  simp only [List.length_cons, List.length_nil]
  omega

theorem normTitle_spec (t : Option String) :
    normTitle t ≠ "" ∧ jsLen (normTitle t) ≤ 100 ∧ jsTrim (normTitle t) = normTitle t := by
  match t with
  | none => exact ⟨by decide, by decide, by decide⟩
  | some raw =>
    by_cases hraw : raw = ""
    · rw [show normTitle (some raw) = "할 일" by simp [normTitle, hraw]]
      exact ⟨by decide, by decide, by decide⟩
    · rw [normTitle_some_eq raw hraw]
      by_cases h100 : 100 < jsLen (jsTrim raw)
      · have hvlen := truncated_title_len raw h100
        have hne : (jsTrim raw).data ≠ [] := by
          intro hcon
          rw [jsLen, hcon] at h100
          simp at h100
        have htr := jsTrim_of_trimmed_concat_dots (jsTrim raw) hne
          (fun y ys hy => jsTrim_head_not raw y ys hy)
        rw [if_pos h100, hvlen, if_neg (by omega : ¬(100 < 1))]
        refine ⟨?_, by omega, htr⟩
        intro hcon
        rw [hcon] at hvlen
        simp [jsLen] at hvlen
      · rw [if_neg h100]
        by_cases h1 : jsLen (jsTrim raw) < 1
        · rw [if_pos h1]
          exact ⟨by decide, by decide, by decide⟩
        · rw [if_neg h1]
          refine ⟨?_, by omega, jsTrim_idem raw⟩
          intro hcon
          rw [hcon] at h1
          exact h1 (by decide)

theorem normTitle_idem (t : Option String) :
    normTitle (some (normTitle t)) = normTitle t := by
  obtain ⟨hne, hle, htr⟩ := normTitle_spec t
  have h1 : ¬(jsLen (normTitle t) < 1) := by
    intro hcon
    exact hne ((jsLen_eq_zero_iff (normTitle t)).mp (by omega))
  rw [normTitle_some_eq (normTitle t) hne, htr,
    if_neg (by omega : ¬(100 < jsLen (normTitle t))), if_neg h1]

theorem normDescription_spec (d : Option String) :
    normDescription d = none ∨
      ∃ u, normDescription d = some u ∧ u ≠ "" ∧ jsTrim u = u := by
  match d with
  | none => exact Or.inl rfl
  | some s =>
    by_cases hs : s = ""
    · simp [normDescription, hs]
    · by_cases hz : jsLen (jsTrim s) = 0
      · simp [normDescription, hs, hz]
      · refine Or.inr ⟨jsTrim s, by simp [normDescription, hs, hz], ?_, jsTrim_idem s⟩
        intro hcon
        exact hz (by rw [hcon]; decide)

theorem normDescription_idem (d : Option String) :
    normDescription (normDescription d) = normDescription d := by
  rcases normDescription_spec d with h | ⟨u, h, hne, htr⟩
  · rw [h]; rfl
  · rw [h]
    have hz : ¬(jsLen u = 0) := fun hc => hne ((jsLen_eq_zero_iff u).mp hc)
    simp [normDescription, hne, htr, hz]

theorem normCategory_eq_normDescription (c : Option String) :
    normCategory c = normDescription c := by
  match c with
  | none => rfl
  | some s => rfl

theorem normCategory_idem (c : Option String) :
    normCategory (normCategory c) = normCategory c := by
  rw [normCategory_eq_normDescription, normCategory_eq_normDescription]
  exact normDescription_idem c

theorem matchesDateRegex_ne_empty (s : String) (h : matchesDateRegex s = true) : s ≠ "" := by
  intro hcon
  rw [hcon] at h
  simp [matchesDateRegex] at h

theorem matchesTimeRegex_ne_empty (s : String) (h : matchesTimeRegex s = true) : s ≠ "" := by
  intro hcon
  rw [hcon] at h
  simp [matchesTimeRegex] at h

theorem jsPastDay_self (cd : String) : jsPastDay cd cd = false := by
  unfold jsPastDay
  cases jsDateDay cd with
  | none => rfl
  | some a => simp

theorem normDueDate_shape (s : Option String) (cd : String)
    (hcd : matchesDateRegex cd = true) :
    normDueDate s cd = none ∨
      ∃ v, normDueDate s cd = some v ∧ matchesDateRegex v = true := by
  match s with
  | none => exact Or.inl rfl
  | some v =>
    by_cases hv : v = ""
    · exact Or.inl (by simp [normDueDate, hv])
    · by_cases hp : jsPastDay v cd = true
      · exact Or.inr ⟨cd, by simp [normDueDate, hv, hp], hcd⟩
      · by_cases hr : matchesDateRegex v = true
        · exact Or.inr ⟨v, by simp [normDueDate, hv, hp, hr], hr⟩
        · exact Or.inl (by simp [normDueDate, hv, hp, hr])

theorem normDueDate_idem (s : Option String) (cd : String)
    (hcd : matchesDateRegex cd = true) :
    normDueDate (normDueDate s cd) cd = normDueDate s cd := by
  match s with
  | none => rfl
  | some v =>
    by_cases hv : v = ""
    · simp [normDueDate, hv]
    · by_cases hp : jsPastDay v cd = true
      · rw [show normDueDate (some v) cd = some cd by simp [normDueDate, hv, hp]]
        simp [normDueDate, matchesDateRegex_ne_empty cd hcd, jsPastDay_self, hcd]
      · by_cases hr : matchesDateRegex v = true
        · rw [show normDueDate (some v) cd = some v by simp [normDueDate, hv, hp, hr]]
          simp [normDueDate, hv, hp, hr]
        · rw [show normDueDate (some v) cd = none by simp [normDueDate, hv, hp, hr]]
          rfl

theorem normDueTime_shape (s : Option String) :
    normDueTime s = none ∨
      ∃ v, normDueTime s = some v ∧ matchesTimeRegex v = true := by
  match s with
  | none => exact Or.inl rfl
  | some v =>
    by_cases hv : v = ""
    · exact Or.inl (by simp [normDueTime, hv])
    · by_cases hr : matchesTimeRegex v = true
      · exact Or.inr ⟨v, by simp [normDueTime, hv, hr], hr⟩
      · exact Or.inl (by simp [normDueTime, hv, hr])

theorem normDueTime_idem (s : Option String) :
    normDueTime (normDueTime s) = normDueTime s := by
  rcases normDueTime_shape s with h | ⟨v, h, hr⟩
  · rw [h]; rfl
  · rw [h]
    simp [normDueTime, matchesTimeRegex_ne_empty v hr, hr]

theorem normPriority_mem (p : Option String) :
    normPriority p = "high" ∨ normPriority p = "medium" ∨ normPriority p = "low" := by
  match p with
  | none => exact Or.inr (Or.inl rfl)
  | some v =>
    by_cases hv : v = ""
    · exact Or.inr (Or.inl (by simp [normPriority, hv]))
    · by_cases hm : (v = "high" || v = "medium" || v = "low") = true
      · rw [show normPriority (some v) = v by simp [normPriority, hv, hm]]
        have hm' : (v = "high" ∨ v = "medium") ∨ v = "low" := by simpa using hm
        tauto
      · exact Or.inr (Or.inl (by simp [normPriority, hv]; simp at hm; simp [hm]))

theorem normPriority_idem (p : Option String) :
    normPriority (some (normPriority p)) = normPriority p := by
  rcases normPriority_mem p with h | h | h <;> rw [h] <;> rfl

/-! ## Lemmas about the statistics aggregation -/

/-- Total number of tasks counted across the four time-slot buckets. -/
def slotSum (ts : TimeSlots) : Nat :=
  ts.morning.total + ts.afternoon.total + ts.evening.total + ts.night.total

/-- The comparison predicate of claim C10: the task has a truthy due_time
whose hour component (as the slot loop computes it) is at least 9. -/
def dueHourAtLeast9 (t : Todo) : Bool :=
  match t.due_time with
  | some s =>
    if s = "" then false
    else
      match hourOf s with
      | some h => decide (9 ≤ h)
      | none => false
  | none => false

theorem slot_chain_isSome (h : Nat) :
    (if 9 ≤ h && h < 12 then some Slot.morning
     else if 12 ≤ h && h < 18 then some Slot.afternoon
     else if 18 ≤ h && h < 21 then some Slot.evening
     else if 21 ≤ h then some Slot.night
     else none).isSome = decide (9 ≤ h) := by
  split_ifs with h1 h2 h3 h4 <;> simp_all <;> omega

theorem slotOf_isSome (t : Todo) : (slotOf t.due_time).isSome = dueHourAtLeast9 t := by
  unfold slotOf dueHourAtLeast9
  match t.due_time with
  | none => rfl
  | some s =>
    by_cases hs : s = ""
    · simp [hs]
    · simp only [hs, if_neg, if_false]
      match hourOf s with
      | none => rfl
      | some h => exact slot_chain_isSome h

theorem slotSum_addToSlots (ts : TimeSlots) (t : Todo) :
    slotSum (addToSlots ts t) = slotSum ts + (if dueHourAtLeast9 t then 1 else 0) := by
  rw [← slotOf_isSome]
  cases hs : slotOf t.due_time with
  | none => simp [addToSlots, hs, slotSum]
  | some sl => cases sl <;> simp [addToSlots, hs, slotSum, bump] <;> omega

theorem slotSum_foldl (todos : List Todo) (acc : TimeSlots) :
    slotSum (todos.foldl addToSlots acc) =
      slotSum acc + (todos.filter (fun t => dueHourAtLeast9 t)).length := by
  induction todos generalizing acc with
  | nil => simp
  | cons t ts ih =>
    rw [List.foldl_cons, ih, slotSum_addToSlots, List.filter_cons]
    by_cases h : dueHourAtLeast9 t = true
    · simp [h]
      omega
    · simp [h]

theorem bumpCat_pos (acc : List (String × Bucket)) (k : String) (c : Bool)
    (h : ∀ e ∈ acc, 0 < e.2.total) : ∀ e ∈ bumpCat acc k c, 0 < e.2.total := by
  induction acc with
  | nil =>
    intro e he
    simp [bumpCat] at he
    rw [he]
    exact Nat.one_pos
  | cons hd rest ih =>
    intro e he
    by_cases hk : hd.1 = k
    · rw [show bumpCat (hd :: rest) k c = (hd.1, bump hd.2 c) :: rest by
        simp [bumpCat, hk]] at he
      rcases List.mem_cons.mp he with he | he
      · rw [he]
        simp [bump]
      · exact h e (List.mem_cons_of_mem hd he)
    · rw [show bumpCat (hd :: rest) k c = hd :: bumpCat rest k c by
        cases hd with
        | mk k' b => simp only [bumpCat, hk, if_neg, if_false]] at he
      rcases List.mem_cons.mp he with he | he
      · rw [he]
        exact h hd (List.mem_cons_self hd rest)
      · exact ih (fun e he => h e (List.mem_cons_of_mem hd he)) e he

theorem computeCategoryStats_pos (todos : List Todo) :
    ∀ e ∈ computeCategoryStats todos, 0 < e.2.total := by
  have aux : ∀ (l : List Todo) (acc : List (String × Bucket)),
      (∀ e ∈ acc, 0 < e.2.total) →
      ∀ e ∈ l.foldl (fun acc t => bumpCat acc (catKey t.category) t.completed) acc,
        0 < e.2.total := by
    intro l
    induction l with
    | nil => intro acc h; simpa using h
    | cons t ts ih =>
      intro acc h
      rw [List.foldl_cons]
      exact ih _ (bumpCat_pos acc _ _ h)
  exact aux todos [] (by simp)

theorem rateStr_zero (c : Nat) : rateStr c 0 = "0" := by
  simp [rateStr]

theorem statusOfClass_ne_400 (c : ErrClass) : statusOfClass c ≠ 400 := by
  cases c <;> decide

/-! ## The claims -/

/-- Claim C1, counterexample.  The claim says a request with `todos = []`
and a valid period returns 400 and does not invoke the model.  In the code,
`!todos || !Array.isArray(todos)` does not catch `[]` (an empty array is
truthy and is an array), so with the API key set and a successful upstream
call the handler returns 200 and the model IS invoked. -/
theorem claim1_counterexample :
    (analyzePOST (.arr []) (some "today") true (.ok ()) 0).status = 200 ∧
    (analyzePOST (.arr []) (some "today") true (.ok ()) 0).modelCalled = true :=
  ⟨rfl, rfl⟩

/-- Claim C1, amended: an empty `todos` array passes validation.  The
analyze-todos handler returns 400 exactly when the `todos` field is
missing/falsy/non-array or the period is not one of today/week; for
`todos = []` with period "today" and the API key set, the external model is
invoked regardless of its outcome. -/
theorem claim1_theorem (tf : TodosField) (p : Option String) (k : Bool)
    (o : Except JsErr Unit) (n : Nat) :
    ((analyzePOST tf p k o n).status = 400 ↔
      (todosFieldInvalid tf = true ∨ periodInvalid p = true)) ∧
    (analyzePOST (.arr []) (some "today") true o n).modelCalled = true := by
  constructor
  · by_cases ht : todosFieldInvalid tf = true
    · simp [analyzePOST, ht]
    · by_cases hp : periodInvalid p = true
      · simp [analyzePOST, ht, hp]
      · cases tf with
        | missing => simp [todosFieldInvalid] at ht
        | nonArrayFalsy => simp [todosFieldInvalid] at ht
        | nonArrayTruthy => simp [todosFieldInvalid] at ht
        | arr l =>
          simp only [analyzePOST, ht, hp, if_false, Bool.false_eq_true, if_neg]
          cases k with
          | false => simp
          | true =>
            cases o with
            | ok u => simp [ht, hp]
            | error e => simp [ht, hp, statusOfClass_ne_400]
  · cases o with
    | ok u => rfl
    | error e => exact rfl

/-- Claim C2, counterexample.  The claim says that after a failure that is
not a model-not-found error (here: a quota error) the handler surfaces the
error without attempting the next model identifier.  In the code the catch
block of the fallback loop is unconditional: after the first identifier
fails with "quota exceeded", the second identifier is still attempted
(attempts = 2) and its success is returned with status 200. -/
theorem claim2_counterexample :
    (generatePOST (some (.str "meeting tomorrow")) true
      [.error { message := some "quota exceeded" }, .ok {}] "2025-06-10").status = 200 ∧
    (generatePOST (some (.str "meeting tomorrow")) true
      [.error { message := some "quota exceeded" }, .ok {}] "2025-06-10").attempts = 2 ∧
    classifyMsg (errMsgLower (some { message := some "quota exceeded" })) = ErrClass.quota :=
  ⟨rfl, rfl, by decide⟩

/-- Claim C2, amended: in the generate-todo handler, after one model
identifier's call fails, the next identifier is attempted for EVERY kind of
failure (the loop's catch block is unconditional); error classification
(quota / auth / model / network / unknown) is applied only to the last
error, after every identifier has failed. -/
theorem claim2_theorem (e : JsErr) (obj : RawTodo)
    (rest : List (Except JsErr RawTodo)) (cd : String) :
    generatePOST (some (.str "meeting tomorrow")) true (.error e :: .ok obj :: rest) cd =
      ⟨200, 2, some (postprocessResult obj cd)⟩ ∧
    ∀ (e2 : JsErr),
      generatePOST (some (.str "meeting tomorrow")) true [.error e, .error e2] cd =
        ⟨statusOfClass (classifyMsg (errMsgLower (some e2))), 2, none⟩ := by
  exact ⟨rfl, fun e2 => rfl⟩

/-- Claim C7: the generate-todo inputs "" and "a", and any string longer
than 500 characters, are rejected with status 400 before any model call is
made (attempts = 0), whatever the API key, environment and current date. -/
theorem claim7_theorem :
    (∀ (k : Bool) (o : List (Except JsErr RawTodo)) (cd : String),
      generatePOST (some (.str "")) k o cd = ⟨400, 0, none⟩) ∧
    (∀ (k : Bool) (o : List (Except JsErr RawTodo)) (cd : String),
      generatePOST (some (.str "a")) k o cd = ⟨400, 0, none⟩) ∧
    (∀ (s : String) (k : Bool) (o : List (Except JsErr RawTodo)) (cd : String),
      500 < jsLen s → generatePOST (some (.str s)) k o cd = ⟨400, 0, none⟩) := by
  refine ⟨fun k o cd => rfl, fun k o cd => rfl, fun s k o cd h => ?_⟩
  have hv : validateInput s = false := by
    by_cases h1 : jsLen (jsTrim s) = 0
    · simp [validateInput, h1]
    · by_cases h2 : jsLen (jsTrim s) < 2
      · simp [validateInput, h1, h2]
      · simp [validateInput, h1, h2, h]
  simp [generatePOST, hv]

/-- Claim C7, witness: a concrete 501-character string is rejected with 400
and zero model attempts. -/
theorem claim7_witness :
    500 < jsLen (String.mk (List.replicate 501 'x')) ∧
    generatePOST (some (.str (String.mk (List.replicate 501 'x')))) true [] "2025-06-10" =
      ⟨400, 0, none⟩ :=
  ⟨by decide, claim7_theorem.2.2 (String.mk (List.replicate 501 'x')) true [] "2025-06-10"
    (by decide)⟩

/-- The field constraints claim C3 asserts of the normalizer's output:
title a non-empty string of at most 100 characters, priority one of
high/medium/low, due_time null or matching the HH:mm regex, due_date null
or matching the YYYY-MM-DD regex, description and category each null or a
non-empty trimmed string. -/
def isNormalizedTodo (r : RawTodo) : Bool :=
  (match r.title with
   | some t => !(t == "") && jsLen t ≤ 100
   | none => false) &&
  (match r.priority with
   | some p => p == "high" || p == "medium" || p == "low"
   | none => false) &&
  (match r.due_time with
   | some v => matchesTimeRegex v
   | none => true) &&
  (match r.due_date with
   | some v => matchesDateRegex v
   | none => true) &&
  (match r.description with
   | some u => !(u == "") && (jsTrim u == u)
   | none => true) &&
  (match r.category with
   | some u => !(u == "") && (jsTrim u == u)
   | none => true)

/-- Claim C3, counterexample.  The claim quantifies over EVERY current-date
string; but when the handler's rewrite-past-dates branch fires with a
current date that does not match `YYYY-MM-DD` (here, an ISO date-time
string), that whole string is copied into due_date, so the output violates
the claimed "due_date null or YYYY-MM-DD" constraint. -/
theorem claim3_counterexample :
    isNormalizedTodo
      (postprocessResult { due_date := some "2019-01-01" } "2025-06-10T00:00:00Z") = false ∧
    (postprocessResult { due_date := some "2019-01-01" } "2025-06-10T00:00:00Z").due_date =
      some "2025-06-10T00:00:00Z" := by
  exact ⟨by decide, by decide⟩

/-- Claim C3, amended: for every input object and every current-date string
MATCHING `YYYY-MM-DD` (as the handler always supplies), the normalizer's
output satisfies all the claimed field constraints; moreover a due_time of
"25:00" or "9:5" is normalized to absent while "09:05" passes through
unchanged.  (The never-throws part is captured by the embedding being a
total function.) -/
theorem claim3_theorem (x : RawTodo) (cd : String)
    (hcd : matchesDateRegex cd = true) :
    isNormalizedTodo (postprocessResult x cd) = true ∧
    (x.due_time = some "25:00" → (postprocessResult x cd).due_time = none) ∧
    (x.due_time = some "9:5" → (postprocessResult x cd).due_time = none) ∧
    (x.due_time = some "09:05" → (postprocessResult x cd).due_time = some "09:05") := by
  refine ⟨?_, ?_, ?_, ?_⟩
  · simp only [isNormalizedTodo, postprocessResult, Bool.and_eq_true]
    refine ⟨⟨⟨⟨⟨?_, ?_⟩, ?_⟩, ?_⟩, ?_⟩, ?_⟩
    · have h1 := (normTitle_spec x.title).1
      have h2 := (normTitle_spec x.title).2.1
      simp [h1, h2]
    · rcases normPriority_mem x.priority with h | h | h <;> simp [h]
    · rcases normDueTime_shape x.due_time with h | ⟨v, h, hr⟩
      · simp [h]
      · simp [h, hr]
    · rcases normDueDate_shape x.due_date cd hcd with h | ⟨v, h, hr⟩
      · simp [h]
      · simp [h, hr]
    · rcases normDescription_spec x.description with h | ⟨u, h, hne, htr⟩
      · simp [h]
      · simp [h, hne, htr]
    · rw [normCategory_eq_normDescription]
      rcases normDescription_spec x.category with h | ⟨u, h, hne, htr⟩
      · simp [h]
      · simp [h, hne, htr]
  · intro h
    show normDueTime x.due_time = none
    rw [h]
    decide
  · intro h
    show normDueTime x.due_time = none
    rw [h]
    decide
  · intro h
    show normDueTime x.due_time = some "09:05"
    rw [h]
    decide

/-- Claim C3, witness: the amended theorem applied to a thoroughly
malformed concrete draft at the current date 2025-06-10. -/
theorem claim3_witness :
    isNormalizedTodo
      (postprocessResult
        { title := some "   ", description := some " ", due_date := some "2025-13-45",
          due_time := some "25:00", priority := some "urgent", category := some " 업무 " }
        "2025-06-10") = true ∧
    (postprocessResult
        { title := some "   ", description := some " ", due_date := some "2025-13-45",
          due_time := some "25:00", priority := some "urgent", category := some " 업무 " }
        "2025-06-10").due_time = none :=
  ⟨(claim3_theorem
      { title := some "   ", description := some " ", due_date := some "2025-13-45",
        due_time := some "25:00", priority := some "urgent", category := some " 업무 " }
      "2025-06-10" (by decide)).1,
   (claim3_theorem
      { title := some "   ", description := some " ", due_date := some "2025-13-45",
        due_time := some "25:00", priority := some "urgent", category := some " 업무 " }
      "2025-06-10" (by decide)).2.1 rfl⟩

/-- Claim C4, counterexample.  With a current-date string that is a valid
ISO date-time but does not match `YYYY-MM-DD`, normalizing a past due_date
copies the current-date string into due_date; a second normalization then
drops it to null, so the normalizer is not idempotent for every
current-date string. -/
theorem claim4_counterexample :
    postprocessResult
        (postprocessResult { due_date := some "2019-01-01" } "2025-06-10T00:00:00Z")
        "2025-06-10T00:00:00Z" ≠
      postprocessResult { due_date := some "2019-01-01" } "2025-06-10T00:00:00Z" := by
  decide

/-- Claim C4, amended: the normalizer is idempotent for every input object
whenever the current-date string matches `YYYY-MM-DD` (as the handler
always supplies): applying postprocessResult to its own output with the
same current date yields the same record. -/
theorem claim4_theorem (x : RawTodo) (cd : String)
    (hcd : matchesDateRegex cd = true) :
    postprocessResult (postprocessResult x cd) cd = postprocessResult x cd := by
  simp only [postprocessResult, RawTodo.mk.injEq]
  exact ⟨congrArg some (normTitle_idem x.title),
    normDescription_idem x.description,
    normDueDate_idem x.due_date cd hcd,
    normDueTime_idem x.due_time,
    congrArg some (normPriority_idem x.priority),
    normCategory_idem x.category⟩

/-- Claim C4, witness: idempotence at a concrete malformed draft and the
concrete current date 2025-06-10. -/
theorem claim4_witness :
    postprocessResult
        (postprocessResult
          { title := some "  할 일 제목  ", due_date := some "2025-01-01",
            due_time := some "9:5", priority := some "HIGH" } "2025-06-10")
        "2025-06-10" =
      postprocessResult
        { title := some "  할 일 제목  ", due_date := some "2025-01-01",
          due_time := some "9:5", priority := some "HIGH" } "2025-06-10" :=
  claim4_theorem
    { title := some "  할 일 제목  ", due_date := some "2025-01-01",
      due_time := some "9:5", priority := some "HIGH" } "2025-06-10" (by decide)

/-- Claim C5, counterexample.  A due_date string that does not match
`YYYY-MM-DD` is NOT always dropped to null: an ISO date-time string that
parses to a date strictly before the current date is rewritten to the
current date instead (the past-date branch runs before the format check). -/
theorem claim5_counterexample :
    matchesDateRegex "2020-01-01T00:00:00Z" = false ∧
    (postprocessResult { due_date := some "2020-01-01T00:00:00Z" } "2025-06-10").due_date =
      some "2025-06-10" := by
  exact ⟨by decide, by decide⟩

/-- Claim C5, amended: a due_date string not matching `YYYY-MM-DD` is
dropped to null UNLESS the JS date parser resolves it to a calendar day
strictly before the current date, in which case it is rewritten to the
current date. -/
theorem claim5_theorem (x : RawTodo) (s cd : String)
    (hx : x.due_date = some s) (hr : matchesDateRegex s = false) :
    (jsPastDay s cd = false → (postprocessResult x cd).due_date = none) ∧
    (jsPastDay s cd = true → (postprocessResult x cd).due_date = some cd) := by
  constructor
  · intro hp
    show normDueDate x.due_date cd = none
    rw [hx]
    by_cases hs : s = "" <;> simp [normDueDate, hs, hp, hr]
  · intro hp
    show normDueDate x.due_date cd = some cd
    rw [hx]
    have hs : ¬(s = "") := by
      intro hcon
      rw [hcon] at hp
      have hfalse : jsPastDay "" cd = false := rfl
      rw [hfalse] at hp
      exact absurd hp (by decide)
    simp [normDueDate, hs, hp]

/-- Claim C5, witness: a garbage due_date is dropped to null, and a
past-resolving ISO date-time due_date is rewritten to the current date. -/
theorem claim5_witness :
    (postprocessResult { due_date := some "not-a-date" } "2025-06-10").due_date = none ∧
    (postprocessResult { due_date := some "2020-01-01T00:00:00Z" } "2025-06-10").due_date =
      some "2025-06-10" :=
  ⟨(claim5_theorem { due_date := some "not-a-date" } "not-a-date" "2025-06-10"
      rfl (by decide)).1 (by decide),
   (claim5_theorem { due_date := some "2020-01-01T00:00:00Z" } "2020-01-01T00:00:00Z"
      "2025-06-10" rfl (by decide)).2 (by decide)⟩

/-- Claim C6: a due_date matching `YYYY-MM-DD` that resolves to a calendar
day strictly before the current date is rewritten to the current date. -/
theorem claim6_theorem (x : RawTodo) (s cd : String)
    (hx : x.due_date = some s) (hr : matchesDateRegex s = true)
    (hp : jsPastDay s cd = true) :
    (postprocessResult x cd).due_date = some cd := by
  show normDueDate x.due_date cd = some cd
  rw [hx]
  simp [normDueDate, matchesDateRegex_ne_empty s hr, hp]

/-- Claim C6, witness: yesterday relative to the fixed current date
2025-06-10 is rewritten to 2025-06-10. -/
theorem claim6_witness :
    (postprocessResult { due_date := some "2025-06-09" } "2025-06-10").due_date =
      some "2025-06-10" :=
  claim6_theorem { due_date := some "2025-06-09" } "2025-06-09" "2025-06-10"
    rfl (by decide) (by decide)

/-- Claim C8: every completion-rate computation of the statistics
aggregation reports "0" when its denominator is 0 and never divides by
zero: the overall, per-priority and on-time rates are guarded, the four
per-slot rates rendered in the prompt are guarded, every category bucket
has a strictly positive total (its rate's denominator is never 0), and the
weekday lines are filtered to positive totals before their (unguarded) rate
is computed. -/
theorem claim8_theorem (todos : List Todo) (now : Nat) :
    ((aggregate todos now).total = 0 → (aggregate todos now).completionRate = "0") ∧
    ((aggregate todos now).highPriorityTotal = 0 →
      (aggregate todos now).highPriorityRate = "0") ∧
    ((aggregate todos now).mediumPriorityTotal = 0 →
      (aggregate todos now).mediumPriorityRate = "0") ∧
    ((aggregate todos now).lowPriorityTotal = 0 →
      (aggregate todos now).lowPriorityRate = "0") ∧
    ((aggregate todos now).withDueDate = 0 → (aggregate todos now).onTimeRate = "0") ∧
    ((aggregate todos now).timeSlots.morning.total = 0 →
      slotRateStr (aggregate todos now).timeSlots.morning = "0") ∧
    ((aggregate todos now).timeSlots.afternoon.total = 0 →
      slotRateStr (aggregate todos now).timeSlots.afternoon = "0") ∧
    ((aggregate todos now).timeSlots.evening.total = 0 →
      slotRateStr (aggregate todos now).timeSlots.evening = "0") ∧
    ((aggregate todos now).timeSlots.night.total = 0 →
      slotRateStr (aggregate todos now).timeSlots.night = "0") ∧
    (∀ e ∈ (aggregate todos now).categoryStats, 0 < e.2.total) ∧
    (∀ e ∈ weekdayLines (aggregate todos now).dayOfWeek, 0 < e.2.total) := by
  refine ⟨?_, ?_, ?_, ?_, ?_, ?_, ?_, ?_, ?_, ?_, ?_⟩
  · intro h
    rw [show (aggregate todos now).completionRate =
      rateStr (aggregate todos now).completed (aggregate todos now).total from rfl, h,
      rateStr_zero]
  · intro h
    rw [show (aggregate todos now).highPriorityRate =
      rateStr (aggregate todos now).highPriorityCompleted
        (aggregate todos now).highPriorityTotal from rfl, h, rateStr_zero]
  · intro h
    rw [show (aggregate todos now).mediumPriorityRate =
      rateStr (aggregate todos now).mediumPriorityCompleted
        (aggregate todos now).mediumPriorityTotal from rfl, h, rateStr_zero]
  · intro h
    rw [show (aggregate todos now).lowPriorityRate =
      rateStr (aggregate todos now).lowPriorityCompleted
        (aggregate todos now).lowPriorityTotal from rfl, h, rateStr_zero]
  · intro h
    rw [show (aggregate todos now).onTimeRate =
      rateStr (aggregate todos now).completedOnTime
        (aggregate todos now).withDueDate from rfl, h, rateStr_zero]
  · intro h
    rw [show slotRateStr (aggregate todos now).timeSlots.morning =
      rateStr (aggregate todos now).timeSlots.morning.completed
        (aggregate todos now).timeSlots.morning.total from rfl, h, rateStr_zero]
  · intro h
    rw [show slotRateStr (aggregate todos now).timeSlots.afternoon =
      rateStr (aggregate todos now).timeSlots.afternoon.completed
        (aggregate todos now).timeSlots.afternoon.total from rfl, h, rateStr_zero]
  · intro h
    rw [show slotRateStr (aggregate todos now).timeSlots.evening =
      rateStr (aggregate todos now).timeSlots.evening.completed
        (aggregate todos now).timeSlots.evening.total from rfl, h, rateStr_zero]
  · intro h
    rw [show slotRateStr (aggregate todos now).timeSlots.night =
      rateStr (aggregate todos now).timeSlots.night.completed
        (aggregate todos now).timeSlots.night.total from rfl, h, rateStr_zero]
  · exact fun e he => computeCategoryStats_pos todos e he
  · intro e he
    have := List.mem_filter.mp he
    simpa using this.2

/-- Claim C8, witness: on the empty task list every guarded rate reports
"0", and on a one-task list the single category bucket has a positive
total. -/
theorem claim8_witness :
    (aggregate [] 0).completionRate = "0" ∧
    (aggregate [] 0).highPriorityRate = "0" ∧
    (aggregate [] 0).mediumPriorityRate = "0" ∧
    (aggregate [] 0).lowPriorityRate = "0" ∧
    (aggregate [] 0).onTimeRate = "0" ∧
    slotRateStr (aggregate [] 0).timeSlots.morning = "0" ∧
    slotRateStr (aggregate [] 0).timeSlots.afternoon = "0" ∧
    slotRateStr (aggregate [] 0).timeSlots.evening = "0" ∧
    slotRateStr (aggregate [] 0).timeSlots.night = "0" ∧
    0 < (("업무", ⟨1, 1⟩) : String × Bucket).2.total :=
  ⟨(claim8_theorem [] 0).1 (by decide),
   (claim8_theorem [] 0).2.1 (by decide),
   (claim8_theorem [] 0).2.2.1 (by decide),
   (claim8_theorem [] 0).2.2.2.1 (by decide),
   (claim8_theorem [] 0).2.2.2.2.1 (by decide),
   (claim8_theorem [] 0).2.2.2.2.2.1 (by decide),
   (claim8_theorem [] 0).2.2.2.2.2.2.1 (by decide),
   (claim8_theorem [] 0).2.2.2.2.2.2.2.1 (by decide),
   (claim8_theorem [] 0).2.2.2.2.2.2.2.2.1 (by decide),
   (claim8_theorem [{ completed := true, category := some "업무" }] 0).2.2.2.2.2.2.2.2.2.1
     ("업무", ⟨1, 1⟩) (by decide)⟩

/-- Claim C9, counterexample.  The aggregation reads the ambient clock: the
overdue count of the very same task list differs between a run clocked the
day before the task's due date and a run clocked the day after, so two runs
over identical input need not produce identical statistics. -/
theorem claim9_counterexample :
    (aggregate [{ completed := false, due_date := some "2025-06-10" }]
        (daysFromCivil 2025 6 9 * 86400)).overdue = 0 ∧
    (aggregate [{ completed := false, due_date := some "2025-06-10" }]
        (daysFromCivil 2025 6 11 * 86400)).overdue = 1 := by
  exact ⟨by decide, by decide⟩

/-- Claim C9, amended: the aggregation is a pure function of the task list
and the ambient clock; every statistic EXCEPT the overdue count and the
due-within-24-hours count is independent of the clock, hence identical
across any two runs over the same task list (for any period, which no
statistic reads). -/
theorem claim9_theorem (todos : List Todo) (n1 n2 : Nat) :
    (aggregate todos n1).total = (aggregate todos n2).total ∧
    (aggregate todos n1).completed = (aggregate todos n2).completed ∧
    (aggregate todos n1).completionRate = (aggregate todos n2).completionRate ∧
    (aggregate todos n1).highPriorityTotal = (aggregate todos n2).highPriorityTotal ∧
    (aggregate todos n1).highPriorityCompleted = (aggregate todos n2).highPriorityCompleted ∧
    (aggregate todos n1).highPriorityRate = (aggregate todos n2).highPriorityRate ∧
    (aggregate todos n1).mediumPriorityTotal = (aggregate todos n2).mediumPriorityTotal ∧
    (aggregate todos n1).mediumPriorityCompleted =
      (aggregate todos n2).mediumPriorityCompleted ∧
    (aggregate todos n1).mediumPriorityRate = (aggregate todos n2).mediumPriorityRate ∧
    (aggregate todos n1).lowPriorityTotal = (aggregate todos n2).lowPriorityTotal ∧
    (aggregate todos n1).lowPriorityCompleted = (aggregate todos n2).lowPriorityCompleted ∧
    (aggregate todos n1).lowPriorityRate = (aggregate todos n2).lowPriorityRate ∧
    (aggregate todos n1).highPriorityPending = (aggregate todos n2).highPriorityPending ∧
    (aggregate todos n1).mediumPriorityPending = (aggregate todos n2).mediumPriorityPending ∧
    (aggregate todos n1).lowPriorityPending = (aggregate todos n2).lowPriorityPending ∧
    (aggregate todos n1).withDueDate = (aggregate todos n2).withDueDate ∧
    (aggregate todos n1).completedOnTime = (aggregate todos n2).completedOnTime ∧
    (aggregate todos n1).onTimeRate = (aggregate todos n2).onTimeRate ∧
    (aggregate todos n1).timeSlots = (aggregate todos n2).timeSlots ∧
    (aggregate todos n1).dayOfWeek = (aggregate todos n2).dayOfWeek ∧
    (aggregate todos n1).categoryStats = (aggregate todos n2).categoryStats :=
  ⟨rfl, rfl, rfl, rfl, rfl, rfl, rfl, rfl, rfl, rfl, rfl,
   rfl, rfl, rfl, rfl, rfl, rfl, rfl, rfl, rfl, rfl⟩

/-- Claim C10: the sum of the four time-slot totals equals the number of
tasks whose due_time hour component is at least 9 — and not the number of
tasks that have a due_time: a single task due at "08:00" has a truthy
due_time but is counted in no slot. -/
theorem claim10_theorem :
    (∀ (todos : List Todo) (now : Nat),
      slotSum (aggregate todos now).timeSlots =
        (todos.filter (fun t => dueHourAtLeast9 t)).length) ∧
    slotSum (aggregate [{ due_time := some "08:00" }] 0).timeSlots = 0 ∧
    (([{ due_time := some "08:00" }] : List Todo).filter
      (fun t => truthyS t.due_time)).length = 1 := by
  refine ⟨?_, by decide, by decide⟩
  intro todos now
  rw [show (aggregate todos now).timeSlots = computeTimeSlots todos from rfl,
    computeTimeSlots, slotSum_foldl]
  simp [slotSum]

end TodoApp
